import Mathlib

/-!
Verification of the letta-openGauss core against its specification.

Shallow embedding of:
- `letta/services/job_manager.py` (job lifecycle, usage aggregation, callback dispatch)
- `letta/services/passage_manager.py` (agent/source passage creation and deletion)
- `letta/orm/opengauss_functions.py` (vector store: upsert, delete, similarity search)
- `letta/server/audit_system.py` (risk scoring)
- `letta/server/vector_type_handler.py` (text-encoded vector column round trip)

Machine integers are modelled by `Nat`/`Int`, SQL floats by `ℚ` (with the
real-valued cosine similarity expressed over `ℝ`), fallible code by
`Except`/`Option`, and database state by explicit record types threaded
through the operations.
-/

namespace LettaOG

/-! ### Python string truthiness

Several guards in the source are Python truthiness tests on optional strings
(`if not passage_id:`, `if job.callback_url:`): both `None` and the empty
string are falsy. -/

def truthyStr : Option String → Bool
  | none => false
  | some s => s ≠ ""

/-! ## Job manager (`letta/services/job_manager.py`)

`JobStatus` lives in `letta/schemas/enums.py`, which is not part of the
sources here; only its callers are. -/

/-- Modelled from the spec: `letta.schemas.enums.JobStatus` is missing from
the sources; per §4.4 the statuses are created, pending, running and the
terminal set {completed, failed, cancelled}. -/
inductive JobStatus where
  | created
  | pending
  | running
  | completed
  | failed
  | cancelled
deriving DecidableEq, Repr

/-- Modelled from the spec: `JobStatus.is_terminal` is missing from the
sources; per §4.4 the terminal statuses are completed, failed, cancelled. -/
def JobStatus.isTerminal : JobStatus → Bool
  | .completed => true
  | .failed => true
  | .cancelled => true
  | _ => false

/-- The job row fields relevant to the lifecycle claims
(`letta/orm/job.py` columns, as read and written by `JobManager`).
Timestamps are abstracted to `Nat`. -/
structure Job where
  status : JobStatus
  completedAt : Option Nat
  metadata : Option String
  callbackUrl : Option String
  callbackSentAt : Option Nat
  callbackStatusCode : Option Nat
  callbackError : Option String
deriving DecidableEq, Repr

/-- `JobUpdate` with pydantic `exclude_unset`/`exclude_none` semantics:
a `none` field is absent from `update_data` and leaves the row untouched. -/
structure JobUpdate where
  status : Option JobStatus
  completedAt : Option Nat
  metadata : Option String
deriving DecidableEq, Repr

/-- Outcome of the `httpx` POST in `_dispatch_callback_async`: either an HTTP
response with a status code, or a raised exception rendered to a message. -/
inductive CallbackOutcome where
  | ok (code : Nat)
  | failed (err : String)
deriving DecidableEq, Repr

/-- The `for key, value in update_data.items(): setattr(job, key, value)`
loop of `update_job_by_id_async`: only the explicitly-set fields land. -/
def apply_update (j : Job) (u : JobUpdate) : Job :=
  { j with
    status := u.status.getD j.status
    completedAt := match u.completedAt with
      | some t => some t
      | none => j.completedAt
    metadata := match u.metadata with
      | some m => some m
      | none => j.metadata }

/-- `JobManager._dispatch_callback_async` (job_manager.py:703-730): record
`callback_sent_at` plus `callback_status_code` on HTTP success, or
`callback_sent_at` plus `callback_error` on exception; the exception is
swallowed, never re-raised. -/
def record_callback (j : Job) (o : CallbackOutcome) (now : Nat) : Job :=
  match o with
  | .ok code => { j with callbackSentAt := some now, callbackStatusCode := some code }
  | .failed e => { j with callbackSentAt := some now, callbackError := some e }

structure UpdateResult where
  job : Job
  /-- number of HTTP callbacks dispatched during this update -/
  dispatched : Nat
deriving DecidableEq, Repr

/-- `JobManager.update_job_by_id_async` (job_manager.py:96-122).
Applies the explicitly-set fields of the update; then, whenever the update
requests `completed` or `failed` (no first-transition check in the async
variant, and `cancelled` is not in the set), overwrites `completed_at` with
now and — if `job.callback_url` is truthy — dispatches the callback. -/
def update_job_by_id (j : Job) (u : JobUpdate) (o : CallbackOutcome) (now : Nat) :
    UpdateResult :=
  let j1 := apply_update j u
  if u.status = some .completed ∨ u.status = some .failed then
    let j2 := { j1 with completedAt := some now }
    if truthyStr j2.callbackUrl then ⟨record_callback j2 o now, 1⟩ else ⟨j2, 0⟩
  else ⟨j1, 0⟩

/-- The transition guard of `safe_update_job_status_async`
(job_manager.py:141-147): `any(new.is_terminal and not cur.is_terminal,
cur == created and new != created, cur == pending and new == running)`. -/
def transition_allowed (cur new : JobStatus) : Bool :=
  (new.isTerminal && !cur.isTerminal)
    || (decide (cur = .created) && decide (new ≠ .created))
    || (decide (cur = .pending) && decide (new = .running))

structure SafeResult where
  ok : Bool
  job : Job
  dispatched : Nat
deriving DecidableEq, Repr

/-- `JobManager.safe_update_job_status_async` (job_manager.py:126-162).
On a passing guard it builds a `JobUpdate` carrying the new status, the
metadata when truthy, and `completed_at = now` when the new status is
terminal, and runs `update_job_by_id_async`; otherwise it returns `False`
without touching the job. -/
def safe_update_job_status (j : Job) (newStatus : JobStatus) (now : Nat)
    (o : CallbackOutcome) (md : Option String) : SafeResult :=
  if transition_allowed j.status newStatus then
    let u : JobUpdate :=
      { status := some newStatus
        completedAt := if newStatus.isTerminal then some now else none
        metadata := if truthyStr md then md else none }
    let r := update_job_by_id j u o now
    ⟨true, r.job, r.dispatched⟩
  else ⟨false, j, 0⟩

/-- One invocation of `safe_update_job_status_async` in a trace. -/
structure SafeCall where
  newStatus : JobStatus
  now : Nat
  outcome : CallbackOutcome
  md : Option String
deriving DecidableEq, Repr

/-- A job whose status is changed only through `safe_update_job_status_async`:
fold a list of calls over the job row. -/
def run_safe_updates (j : Job) (calls : List SafeCall) : Job :=
  calls.foldl (fun j c => (safe_update_job_status j c.newStatus c.now c.outcome c.md).job) j

/-! ## Usage aggregation (`JobManager.get_job_usage`, job_manager.py:414-448) -/

/-- A `steps` row as read by `get_job_usage`: the three token counters are
nullable integer columns. -/
structure StepRow where
  promptTokens : Option Int
  completionTokens : Option Int
  totalTokens : Option Int
deriving DecidableEq, Repr

structure LettaUsageStatistics where
  completionTokens : Int
  promptTokens : Int
  totalTokens : Int
  stepCount : Nat
deriving DecidableEq, Repr

/-- `JobManager.get_job_usage` on the job's step rows: explicit zeros when
there are no steps, otherwise `reduce(add, (step.x or 0 for step in rows), 0)`
for each counter (`x or 0` maps a NULL counter to 0) and `len(rows)` steps. -/
def get_job_usage (steps : List StepRow) : LettaUsageStatistics :=
  if steps.isEmpty then
    { completionTokens := 0, promptTokens := 0, totalTokens := 0, stepCount := 0 }
  else
    { completionTokens := steps.foldl (fun a s => a + s.completionTokens.getD 0) 0
      promptTokens := steps.foldl (fun a s => a + s.promptTokens.getD 0) 0
      totalTokens := steps.foldl (fun a s => a + s.totalTokens.getD 0) 0
      stepCount := steps.length }

/-! ## Lemmas about the job state machine -/

theorem isTerminal_cases (s : JobStatus) :
    s.isTerminal = true ↔ s = .completed ∨ s = .failed ∨ s = .cancelled := by
  cases s <;> simp [JobStatus.isTerminal]

theorem update_job_status_eq (j : Job) (u : JobUpdate) (o : CallbackOutcome) (now : Nat) :
    (update_job_by_id j u o now).job.status = u.status.getD j.status := by
  simp only [update_job_by_id]
  split
  · split
    · cases o <;> rfl
    · rfl
  · rfl

theorem update_job_completedAt_eq (j : Job) (u : JobUpdate) (o : CallbackOutcome)
    (now : Nat) (hu : u.completedAt = some now) :
    (update_job_by_id j u o now).job.completedAt = some now := by
  simp only [update_job_by_id]
  split
  · split
    · cases o <;> rfl
    · rfl
  · simp [apply_update, hu]

theorem safe_update_ok_eq (j : Job) (s : JobStatus) (t : Nat)
    (o : CallbackOutcome) (md : Option String) :
    (safe_update_job_status j s t o md).ok = transition_allowed j.status s := by
  unfold safe_update_job_status
  by_cases hg : transition_allowed j.status s = true
  · rw [if_pos hg, hg]
  · rw [if_neg hg]
    simp at hg
    rw [hg]

/-- A skipped safe update returns `False` and the unchanged job. -/
theorem safe_update_skip (j : Job) (s : JobStatus) (t : Nat)
    (o : CallbackOutcome) (md : Option String)
    (h : (safe_update_job_status j s t o md).ok = false) :
    safe_update_job_status j s t o md = ⟨false, j, 0⟩ := by
  rw [safe_update_ok_eq] at h
  unfold safe_update_job_status
  rw [if_neg (by rw [h]; exact Bool.false_ne_true)]

/-- A terminal job skips every safe update and is returned unchanged. -/
theorem safe_update_of_terminal (j : Job) (s : JobStatus) (t : Nat)
    (o : CallbackOutcome) (md : Option String) (h : j.status.isTerminal = true) :
    safe_update_job_status j s t o md = ⟨false, j, 0⟩ := by
  apply safe_update_skip
  rw [safe_update_ok_eq]
  rcases (isTerminal_cases j.status).mp h with hs | hs | hs <;>
    rw [hs] <;> simp [transition_allowed, JobStatus.isTerminal, hs ▸ h]

/-- A successful safe update installs the requested status, and when the
requested status is terminal it also installs `completed_at = now`. -/
theorem safe_update_success (j : Job) (s : JobStatus) (t : Nat)
    (o : CallbackOutcome) (md : Option String)
    (h : (safe_update_job_status j s t o md).ok = true) :
    (safe_update_job_status j s t o md).job.status = s ∧
      (s.isTerminal = true → (safe_update_job_status j s t o md).job.completedAt = some t) := by
  rw [safe_update_ok_eq] at h
  unfold safe_update_job_status
  rw [if_pos h]
  constructor
  · exact update_job_status_eq ..
  · intro hterm
    exact update_job_completedAt_eq _ _ _ _ (by simp [hterm])

/-- The invariant "terminal implies completed_at set" is preserved by a
single safe update. -/
theorem safe_update_preserves_inv (j : Job) (c : SafeCall)
    (hj : j.status.isTerminal = true → j.completedAt ≠ none) :
    ((safe_update_job_status j c.newStatus c.now c.outcome c.md).job.status.isTerminal = true →
      (safe_update_job_status j c.newStatus c.now c.outcome c.md).job.completedAt ≠ none) := by
  intro hterm
  cases hok : (safe_update_job_status j c.newStatus c.now c.outcome c.md).ok
  · rw [safe_update_skip j c.newStatus c.now c.outcome c.md hok] at hterm ⊢
    exact hj hterm
  · obtain ⟨hst, hca⟩ := safe_update_success j c.newStatus c.now c.outcome c.md hok
    rw [hst] at hterm
    rw [hca hterm]
    simp

theorem run_safe_updates_inv (calls : List SafeCall) (j : Job)
    (hj : j.status.isTerminal = true → j.completedAt ≠ none) :
    ((run_safe_updates j calls).status.isTerminal = true →
      (run_safe_updates j calls).completedAt ≠ none) := by
  induction calls generalizing j with
  | nil => exact hj
  | cons c cs ih =>
      exact ih _ (safe_update_preserves_inv j c hj)

theorem run_safe_updates_of_terminal (calls : List SafeCall) (j : Job)
    (hj : j.status.isTerminal = true) : run_safe_updates j calls = j := by
  induction calls with
  | nil => rfl
  | cons c cs ih =>
      show run_safe_updates (safe_update_job_status j c.newStatus c.now c.outcome c.md).job cs = j
      rw [safe_update_of_terminal j c.newStatus c.now c.outcome c.md hj]
      exact ih

theorem run_safe_updates_append (j : Job) (xs ys : List SafeCall) :
    run_safe_updates j (xs ++ ys) = run_safe_updates (run_safe_updates j xs) ys := by
  simp [run_safe_updates, List.foldl_append]

/-! ## Concrete jobs used by witnesses and counterexamples -/

/-- A fresh job in `created` with no callback URL. -/
def jobCreated : Job :=
  { status := .created, completedAt := none, metadata := none,
    callbackUrl := none, callbackSentAt := none,
    callbackStatusCode := none, callbackError := none }

/-- A job in `running` with no callback URL. -/
def jobRunning : Job :=
  { status := .running, completedAt := none, metadata := none,
    callbackUrl := none, callbackSentAt := none,
    callbackStatusCode := none, callbackError := none }

/-- A job in `running` with a callback URL configured. -/
def jobRunningCb : Job :=
  { status := .running, completedAt := none, metadata := none,
    callbackUrl := some "http://cb.example/hook", callbackSentAt := none,
    callbackStatusCode := none, callbackError := none }

/-! ## Claim C1 -/

/-- C1 (corrected): for non-terminal current and requested statuses,
`safe_update_job_status_async` succeeds exactly for created → pending,
created → running, and pending → running; every other non-terminal
transition (a repeated `running` included) returns `False` and leaves the
job unchanged; on success the requested status is installed. The claim
listed only created → pending and pending → running, but the guard clause
`current == created and new != created` also admits created → running. -/
theorem C1_nonterminal_transitions (j : Job) (s : JobStatus) (t : Nat)
    (o : CallbackOutcome) (md : Option String)
    (hc : j.status.isTerminal = false) (hs : s.isTerminal = false) :
    ((safe_update_job_status j s t o md).ok = true ↔
        ((j.status = .created ∧ s ≠ .created) ∨ (j.status = .pending ∧ s = .running))) ∧
      ((safe_update_job_status j s t o md).ok = false →
        safe_update_job_status j s t o md = ⟨false, j, 0⟩) ∧
      ((safe_update_job_status j s t o md).ok = true →
        (safe_update_job_status j s t o md).job.status = s) := by
  refine ⟨?_, safe_update_skip j s t o md, fun h => (safe_update_success j s t o md h).1⟩
  rw [safe_update_ok_eq]
  rcases j with ⟨st, c1, c2, c3, c4, c5, c6⟩
  dsimp only at hc ⊢
  revert hc hs
  cases st <;> cases s <;> decide

/-- C1 counterexample: a job in `created` sent `SafeUpdateStatus(running)` —
a non-terminal advance the claim says is the `pending → running` one only —
succeeds and moves the job to `running`. -/
theorem C1_counterexample :
    (safe_update_job_status jobCreated .running 5 (.ok 200) none).ok = true ∧
      (safe_update_job_status jobCreated .running 5 (.ok 200) none).job.status = .running ∧
      jobCreated.status = .created ∧
      (JobStatus.created).isTerminal = false ∧ (JobStatus.running).isTerminal = false := by
  decide

theorem C1_nonterminal_transitions_witness :
    jobRunning.status.isTerminal = false ∧ (JobStatus.running).isTerminal = false ∧
      (((safe_update_job_status jobRunning .running 3 (.ok 200) none).ok = true ↔
          ((jobRunning.status = .created ∧ JobStatus.running ≠ .created) ∨
            (jobRunning.status = .pending ∧ JobStatus.running = .running))) ∧
        ((safe_update_job_status jobRunning .running 3 (.ok 200) none).ok = false →
          safe_update_job_status jobRunning .running 3 (.ok 200) none = ⟨false, jobRunning, 0⟩) ∧
        ((safe_update_job_status jobRunning .running 3 (.ok 200) none).ok = true →
          (safe_update_job_status jobRunning .running 3 (.ok 200) none).job.status = .running)) :=
  ⟨by decide, by decide,
    C1_nonterminal_transitions jobRunning .running 3 (.ok 200) none (by decide) (by decide)⟩

/-! ## Claim C2 -/

/-- C2 (confirmed): a job starting non-terminal and updated only through
`safe_update_job_status_async` satisfies: whenever it is terminal its
`completed_at` is set; and once terminal, every further safe update is
skipped (`False`, job unchanged), so any longer trace coincides with the
shorter one — the job enters a terminal status at most once and keeps the
original `completed_at`. -/
theorem C2_terminal_invariant (j0 : Job) (calls : List SafeCall)
    (h0 : j0.status.isTerminal = false) :
    ((run_safe_updates j0 calls).status.isTerminal = true →
        (run_safe_updates j0 calls).completedAt ≠ none) ∧
      ((run_safe_updates j0 calls).status.isTerminal = true →
        ∀ c : SafeCall,
          safe_update_job_status (run_safe_updates j0 calls) c.newStatus c.now c.outcome c.md
            = ⟨false, run_safe_updates j0 calls, 0⟩) ∧
      ((run_safe_updates j0 calls).status.isTerminal = true →
        ∀ more : List SafeCall,
          run_safe_updates j0 (calls ++ more) = run_safe_updates j0 calls) := by
  refine ⟨run_safe_updates_inv calls j0 (fun h => by rw [h] at h0; cases h0), ?_, ?_⟩
  · intro hterm c
    exact safe_update_of_terminal _ c.newStatus c.now c.outcome c.md hterm
  · intro hterm more
    rw [run_safe_updates_append]
    exact run_safe_updates_of_terminal more _ hterm

theorem C2_terminal_invariant_witness :
    jobCreated.status.isTerminal = false ∧
      (((run_safe_updates jobCreated [⟨.completed, 4, .ok 200, none⟩]).status.isTerminal = true →
          (run_safe_updates jobCreated [⟨.completed, 4, .ok 200, none⟩]).completedAt ≠ none) ∧
        ((run_safe_updates jobCreated [⟨.completed, 4, .ok 200, none⟩]).status.isTerminal = true →
          ∀ c : SafeCall,
            safe_update_job_status (run_safe_updates jobCreated [⟨.completed, 4, .ok 200, none⟩])
                c.newStatus c.now c.outcome c.md
              = ⟨false, run_safe_updates jobCreated [⟨.completed, 4, .ok 200, none⟩], 0⟩) ∧
        ((run_safe_updates jobCreated [⟨.completed, 4, .ok 200, none⟩]).status.isTerminal = true →
          ∀ more : List SafeCall,
            run_safe_updates jobCreated ([⟨.completed, 4, .ok 200, none⟩] ++ more)
              = run_safe_updates jobCreated [⟨.completed, 4, .ok 200, none⟩])) :=
  ⟨by decide, C2_terminal_invariant jobCreated [⟨.completed, 4, .ok 200, none⟩] (by decide)⟩

/-! ## Claim C3 -/

/-- C3 (corrected): for a job with a (truthy) `callback_url`, the async
update dispatches exactly one callback whenever the requested status is
`completed` or `failed` — on every such update, not only the first terminal
transition — setting `completed_at = now` and recording the result on the
row (`callback_sent_at` and `callback_status_code` on HTTP success,
`callback_sent_at` and `callback_error` on failure), and the requested
status is installed regardless of the callback outcome (dispatch failure
never fails the transition). An update to `cancelled` dispatches no
callback and leaves all callback fields unchanged; its `completed_at` comes
only from the update's explicit `completed_at` field. -/
theorem C3_callback_dispatch (j : Job) (u : JobUpdate) (o : CallbackOutcome) (t : Nat)
    (hcb : truthyStr j.callbackUrl = true) :
    ((u.status = some .completed ∨ u.status = some .failed) →
        (update_job_by_id j u o t).dispatched = 1 ∧
          (update_job_by_id j u o t).job.completedAt = some t ∧
          (update_job_by_id j u o t).job.status = u.status.getD j.status ∧
          (∀ code, o = .ok code →
            (update_job_by_id j u o t).job.callbackSentAt = some t ∧
              (update_job_by_id j u o t).job.callbackStatusCode = some code) ∧
          (∀ e, o = .failed e →
            (update_job_by_id j u o t).job.callbackSentAt = some t ∧
              (update_job_by_id j u o t).job.callbackError = some e)) ∧
      (u.status = some .cancelled →
        (update_job_by_id j u o t).dispatched = 0 ∧
          (update_job_by_id j u o t).job.status = .cancelled ∧
          (update_job_by_id j u o t).job.completedAt
              = (match u.completedAt with | some x => some x | none => j.completedAt) ∧
          (update_job_by_id j u o t).job.callbackSentAt = j.callbackSentAt ∧
          (update_job_by_id j u o t).job.callbackStatusCode = j.callbackStatusCode ∧
          (update_job_by_id j u o t).job.callbackError = j.callbackError) := by
  constructor
  · intro hterm
    unfold update_job_by_id
    rw [if_pos hterm]
    have hurl : truthyStr ({ apply_update j u with completedAt := some t } : Job).callbackUrl
        = true := hcb
    rw [if_pos hurl]
    refine ⟨?_, ?_, ?_, ?_, ?_⟩
    · cases o <;> rfl
    · cases o <;> rfl
    · cases o <;> rfl
    · intro c hc; cases hc; exact ⟨rfl, rfl⟩
    · intro e he; cases he; exact ⟨rfl, rfl⟩
  · intro hcanc
    have hne : ¬ (u.status = some .completed ∨ u.status = some .failed) := by
      rw [hcanc]; rintro (h | h) <;> simp at h
    unfold update_job_by_id
    rw [if_neg hne]
    exact ⟨rfl, by simp [apply_update, hcanc], rfl, rfl, rfl, rfl⟩

/-- C3 counterexample: a running job with a callback URL transitions (for the
first time) into the terminal `cancelled` status via
`safe_update_job_status_async`; `completed_at` is set but no HTTP callback is
dispatched, contradicting the claim that the first transition into any of
{completed, failed, cancelled} dispatches one callback. -/
theorem C3_counterexample :
    truthyStr jobRunningCb.callbackUrl = true ∧
      (safe_update_job_status jobRunningCb .cancelled 7 (.ok 200) none).ok = true ∧
      (safe_update_job_status jobRunningCb .cancelled 7 (.ok 200) none).job.status
          = .cancelled ∧
      (safe_update_job_status jobRunningCb .cancelled 7 (.ok 200) none).job.completedAt
          = some 7 ∧
      (safe_update_job_status jobRunningCb .cancelled 7 (.ok 200) none).dispatched = 0 ∧
      (safe_update_job_status jobRunningCb .cancelled 7 (.ok 200) none).job.callbackSentAt
          = none := by
  decide

/-- A concrete `JobUpdate` asking for completion, as the witness input. -/
def updCompletedW : JobUpdate :=
  { status := some .completed, completedAt := some 9, metadata := none }

theorem C3_callback_dispatch_witness :
    truthyStr jobRunningCb.callbackUrl = true ∧
      (((updCompletedW.status = some .completed ∨ updCompletedW.status = some .failed) →
        (update_job_by_id jobRunningCb updCompletedW (.ok 204) 9).dispatched = 1 ∧
          (update_job_by_id jobRunningCb updCompletedW (.ok 204) 9).job.completedAt
              = some 9 ∧
          (update_job_by_id jobRunningCb updCompletedW (.ok 204) 9).job.status
              = updCompletedW.status.getD jobRunningCb.status ∧
          (∀ code, (CallbackOutcome.ok 204) = .ok code →
            (update_job_by_id jobRunningCb updCompletedW (.ok 204) 9).job.callbackSentAt
                = some 9 ∧
              (update_job_by_id jobRunningCb updCompletedW
                (.ok 204) 9).job.callbackStatusCode = some code) ∧
          (∀ e, (CallbackOutcome.ok 204) = .failed e →
            (update_job_by_id jobRunningCb updCompletedW (.ok 204) 9).job.callbackSentAt
                = some 9 ∧
              (update_job_by_id jobRunningCb updCompletedW (.ok 204) 9).job.callbackError
                = some e)) ∧
        (updCompletedW.status = some .cancelled →
          (update_job_by_id jobRunningCb updCompletedW (.ok 204) 9).dispatched = 0 ∧
            (update_job_by_id jobRunningCb updCompletedW (.ok 204) 9).job.status
                = .cancelled ∧
            (update_job_by_id jobRunningCb updCompletedW (.ok 204) 9).job.completedAt
                = (match updCompletedW.completedAt with
                  | some x => some x
                  | none => jobRunningCb.completedAt) ∧
            (update_job_by_id jobRunningCb updCompletedW (.ok 204) 9).job.callbackSentAt
                = jobRunningCb.callbackSentAt ∧
            (update_job_by_id jobRunningCb updCompletedW
              (.ok 204) 9).job.callbackStatusCode = jobRunningCb.callbackStatusCode ∧
            (update_job_by_id jobRunningCb updCompletedW (.ok 204) 9).job.callbackError
                = jobRunningCb.callbackError)) :=
  ⟨by decide, C3_callback_dispatch jobRunningCb updCompletedW (.ok 204) 9 (by decide)⟩

/-! ## Claim C8 -/

theorem foldl_add_getD (f : StepRow → Option Int) (a : Int) (l : List StepRow) :
    l.foldl (fun acc s => acc + (f s).getD 0) a = a + (l.map (fun s => (f s).getD 0)).sum := by
  induction l generalizing a with
  | nil => simp
  | cons x xs ih => simp [ih, add_assoc]

/-- C8 (confirmed): `get_job_usage` returns the sums of the step rows'
`prompt_tokens`, `completion_tokens` and `total_tokens` (NULL counters count
as 0), with `step_count` the number of step rows; no step rows gives the
all-zero usage. -/
theorem C8_job_usage (steps : List StepRow) :
    (get_job_usage steps).promptTokens = (steps.map (fun s => s.promptTokens.getD 0)).sum ∧
      (get_job_usage steps).completionTokens
          = (steps.map (fun s => s.completionTokens.getD 0)).sum ∧
      (get_job_usage steps).totalTokens = (steps.map (fun s => s.totalTokens.getD 0)).sum ∧
      (get_job_usage steps).stepCount = steps.length ∧
      (steps = [] → get_job_usage steps
          = { completionTokens := 0, promptTokens := 0, totalTokens := 0, stepCount := 0 }) := by
  cases steps with
  | nil => simp [get_job_usage]
  | cons x xs =>
      refine ⟨?_, ?_, ?_, ?_, by simp⟩ <;>
        simp [get_job_usage, foldl_add_getD]

end LettaOG

namespace LettaOG

/-! ## Vector store rows (`letta/orm/opengauss_functions.py`)

The `passage_embeddings` table: `passage_id` is UNIQUE, `embedding_dim` is
always written as `len(embedding)` by `store_embedding` and
`batch_store_embeddings`, so the dimension column is `embedding.length` and
is not duplicated in the model. List order models the table scan order
(`SERIAL` insertion order). Floats are modelled by `ℚ`. -/

/-- The metadata JSON written by
`PassageManager._sync_embedding_to_vector_store`:
`{agent_id, source_id, text[:1000], created_at}` (timestamp omitted). -/
structure VMeta where
  agentId : Option String
  sourceId : Option String
  text : String
deriving DecidableEq, Repr

structure VRow where
  passageId : String
  embedding : List ℚ
  metadata : Option VMeta
deriving DecidableEq, Repr

/-- `OpenGaussVectorStore.store_embedding` (opengauss_functions.py:100-125):
`INSERT ... ON CONFLICT (passage_id) DO UPDATE SET embedding, embedding_dim,
metadata`. No emptiness check is performed on the embedding; the row is
written for any list. -/
def store_embedding (store : List VRow) (passageId : String) (embedding : List ℚ)
    (metadata : Option VMeta) : List VRow :=
  if store.any (fun r => r.passageId = passageId) then
    store.map (fun r => if r.passageId = passageId then ⟨passageId, embedding, metadata⟩ else r)
  else
    store ++ [⟨passageId, embedding, metadata⟩]

/-- `OpenGaussVectorStore.delete_embedding` (opengauss_functions.py:234-257):
`DELETE FROM ... WHERE passage_id = %s`, returning `rowcount > 0`. -/
def delete_embedding (store : List VRow) (passageId : String) : Bool × List VRow :=
  (store.any (fun r => r.passageId = passageId),
    store.filter (fun r => ¬ r.passageId = passageId))

/-- `PassageManager._remove_embedding_from_vector_store`
(passage_manager.py:101-109): calls `delete_embedding`, swallowing errors. -/
def remove_embedding_from_vector_store (store : List VRow) (passageId : String) :
    List VRow :=
  (delete_embedding store passageId).2

/-! ## Passage manager (`letta/services/passage_manager.py`) -/

/-- The pydantic `Passage` input: exactly the fields the creation paths
read. -/
structure PassageInput where
  id : String
  text : String
  embedding : List ℚ
  agentId : Option String
  sourceId : Option String
deriving DecidableEq, Repr

/-- A relational passage row (either table); the claims only need the key,
the text and the embedding. -/
structure PassageRow where
  id : String
  text : String
  embedding : List ℚ
deriving DecidableEq, Repr

/-- The stores touched by the passage manager: the two relational passage
tables plus the vector store. -/
structure PMState where
  agentPassages : List PassageRow
  sourcePassages : List PassageRow
  vectorRows : List VRow
deriving DecidableEq, Repr

/-- Error taxonomy of the passage paths: `ValueError` / `AssertionError`
raised on schema violations (the spec's `InvalidArgument`), `NoResultFound`
(the spec's `NotFound`). -/
inductive PError where
  | invalidArgument (msg : String)
  | notFound (msg : String)
deriving DecidableEq, Repr

/-- `PassageManager._sync_embedding_to_vector_store`
(passage_manager.py:81-99): skipped entirely when `passage.embedding` is
falsy (empty); otherwise upserts with the metadata dict. -/
def sync_embedding_to_vector_store (rows : List VRow) (p : PassageInput) : List VRow :=
  if p.embedding ≠ [] then
    store_embedding rows p.id p.embedding (some ⟨p.agentId, p.sourceId, p.text.take 1000⟩)
  else rows

/-- `PassageManager.create_agent_passage` (passage_manager.py:252-277):
requires a truthy `agent_id` and no truthy `source_id` (raises `ValueError`
before any session is opened), then writes the row and mirrors it to the
vector store. -/
def create_agent_passage (p : PassageInput) (st : PMState) :
    (Except PError PassageRow) × PMState :=
  if truthyStr p.agentId = false then
    (.error (.invalidArgument "Agent passage must have agent_id"), st)
  else if truthyStr p.sourceId = true then
    (.error (.invalidArgument "Agent passage cannot have source_id"), st)
  else
    let row : PassageRow := ⟨p.id, p.text, p.embedding⟩
    (.ok row,
      { st with
        agentPassages := st.agentPassages ++ [row]
        vectorRows := sync_embedding_to_vector_store st.vectorRows p })

/-- `PassageManager.create_source_passage` (passage_manager.py:310-341):
mirror-symmetric to `create_agent_passage`. -/
def create_source_passage (p : PassageInput) (st : PMState) :
    (Except PError PassageRow) × PMState :=
  if truthyStr p.sourceId = false then
    (.error (.invalidArgument "Source passage must have source_id"), st)
  else if truthyStr p.agentId = true then
    (.error (.invalidArgument "Source passage cannot have agent_id"), st)
  else
    let row : PassageRow := ⟨p.id, p.text, p.embedding⟩
    (.ok row,
      { st with
        sourcePassages := st.sourcePassages ++ [row]
        vectorRows := sync_embedding_to_vector_store st.vectorRows p })

/-- Deprecated `PassageManager.create_passage` (passage_manager.py:381-393)
via `_preprocess_passage_for_creation` (passage_manager.py:413-443): the
`assert not data.get("source_id")` (resp. `agent_id`) fires before the
session write when both ids are truthy; no vector-store mirroring happens on
this path. -/
def create_passage (p : PassageInput) (st : PMState) :
    (Except PError PassageRow) × PMState :=
  if truthyStr p.agentId = true then
    if truthyStr p.sourceId = true then
      (.error (.invalidArgument "Passage cannot have both agent_id and source_id"), st)
    else
      let row : PassageRow := ⟨p.id, p.text, p.embedding⟩
      (.ok row, { st with agentPassages := st.agentPassages ++ [row] })
  else if truthyStr p.sourceId = true then
    let row : PassageRow := ⟨p.id, p.text, p.embedding⟩
    (.ok row, { st with sourcePassages := st.sourcePassages ++ [row] })
  else
    (.error (.invalidArgument "Passage must have either agent_id or source_id"), st)

/-- `PassageManager.delete_agent_passage_by_id` (passage_manager.py:785-797):
reads the row (raising `NoResultFound` when absent), hard-deletes it, and
removes the embedding from the vector store. -/
def delete_agent_passage_by_id (passageId : String) (st : PMState) :
    (Except PError Bool) × PMState :=
  if truthyStr (some passageId) = false then
    (.error (.invalidArgument "Passage ID must be provided."), st)
  else if st.agentPassages.any (fun r => r.id = passageId) then
    (.ok true,
      { st with
        agentPassages := st.agentPassages.filter (fun r => ¬ r.id = passageId)
        vectorRows := remove_embedding_from_vector_store st.vectorRows passageId })
  else
    (.error (.notFound "Agent passage not found."), st)

/-- `PassageManager.delete_source_passage_by_id` (passage_manager.py:817-828):
reads the row, hard-deletes it and returns `True`; unlike the agent variant
it never touches the vector store. -/
def delete_source_passage_by_id (passageId : String) (st : PMState) :
    (Except PError Bool) × PMState :=
  if truthyStr (some passageId) = false then
    (.error (.invalidArgument "Passage ID must be provided."), st)
  else if st.sourcePassages.any (fun r => r.id = passageId) then
    (.ok true,
      { st with
        sourcePassages := st.sourcePassages.filter (fun r => ¬ r.id = passageId) })
  else
    (.error (.notFound "Source passage not found."), st)

/-! ## Claim C4 -/

/-- C4 (confirmed): a passage input with both `agent_id` and `source_id` set
(truthy) is rejected with the invalid-argument error by `create_passage`,
`create_agent_passage` and `create_source_passage` alike, and the rejection
happens before any write: both passage tables and the vector store are
returned unchanged. -/
theorem C4_disjoint_ids (p : PassageInput) (st : PMState)
    (ha : truthyStr p.agentId = true) (hs : truthyStr p.sourceId = true) :
    (∃ m, create_agent_passage p st = (.error (.invalidArgument m), st)) ∧
      (∃ m, create_source_passage p st = (.error (.invalidArgument m), st)) ∧
      (∃ m, create_passage p st = (.error (.invalidArgument m), st)) := by
  refine ⟨⟨"Agent passage cannot have source_id", ?_⟩,
    ⟨"Source passage cannot have agent_id", ?_⟩,
    ⟨"Passage cannot have both agent_id and source_id", ?_⟩⟩ <;>
    simp [create_agent_passage, create_source_passage, create_passage, ha, hs]

/-- A passage input with both ids set, as the witness input. -/
def passageBothW : PassageInput :=
  { id := "passage-1", text := "t", embedding := [1, 2],
    agentId := some "a-1", sourceId := some "s-1" }

/-- An empty passage-manager state. -/
def pmEmpty : PMState := { agentPassages := [], sourcePassages := [], vectorRows := [] }

theorem C4_disjoint_ids_witness :
    truthyStr passageBothW.agentId = true ∧ truthyStr passageBothW.sourceId = true ∧
      ((∃ m, create_agent_passage passageBothW pmEmpty
          = (.error (.invalidArgument m), pmEmpty)) ∧
        (∃ m, create_source_passage passageBothW pmEmpty
          = (.error (.invalidArgument m), pmEmpty)) ∧
        (∃ m, create_passage passageBothW pmEmpty
          = (.error (.invalidArgument m), pmEmpty))) :=
  ⟨by decide, by decide, C4_disjoint_ids passageBothW pmEmpty (by decide) (by decide)⟩

/-! ## Claim C5 -/

/-- C5 (corrected): deleting an existing agent passage hard-deletes the
relational row and removes the vector-store row; deleting an existing source
passage hard-deletes the relational row but — unlike the claim — leaves the
vector store untouched (`delete_source_passage_by_id` never calls
`_remove_embedding_from_vector_store`). Neither delete touches the other
passage table. -/
theorem C5_delete_passages (passageId : String) (st : PMState)
    (hid : passageId ≠ "") :
    ((st.agentPassages.any (fun r => r.id = passageId) = true →
        delete_agent_passage_by_id passageId st
          = (.ok true,
            { st with
              agentPassages := st.agentPassages.filter (fun r => ¬ r.id = passageId)
              vectorRows := st.vectorRows.filter (fun r => ¬ r.passageId = passageId) })) ∧
      (st.sourcePassages.any (fun r => r.id = passageId) = true →
        delete_source_passage_by_id passageId st
          = (.ok true,
            { st with
              sourcePassages := st.sourcePassages.filter (fun r => ¬ r.id = passageId) }))) := by
  constructor
  · intro hmem
    simp [delete_agent_passage_by_id, truthyStr, hid, hmem,
      remove_embedding_from_vector_store, delete_embedding]
  · intro hmem
    simp [delete_source_passage_by_id, truthyStr, hid, hmem]

/-- A state holding one source passage mirrored into the vector store. -/
def pmSourceW : PMState :=
  { agentPassages := []
    sourcePassages := [⟨"s-passage-1", "hello", [1]⟩]
    vectorRows := [⟨"s-passage-1", [1], none⟩] }

/-- C5 counterexample: deleting the only source passage succeeds and removes
the relational row, yet its embedding row is still present in the vector
store — refuting the claim that `DeleteSourcePassageById` removes the
corresponding vector-store row. -/
theorem C5_counterexample :
    (delete_source_passage_by_id "s-passage-1" pmSourceW).1 = .ok true ∧
      (delete_source_passage_by_id "s-passage-1" pmSourceW).2.sourcePassages = [] ∧
      (delete_source_passage_by_id "s-passage-1" pmSourceW).2.vectorRows
          = [⟨"s-passage-1", [1], none⟩] :=
  ⟨rfl, rfl, rfl⟩

/-- A state holding one agent passage and one source passage, both mirrored
into the vector store. -/
def pmBothW : PMState :=
  { agentPassages := [⟨"a-passage-1", "alpha", [2]⟩]
    sourcePassages := [⟨"s-passage-1", "hello", [1]⟩]
    vectorRows := [⟨"a-passage-1", [2], none⟩, ⟨"s-passage-1", [1], none⟩] }

theorem C5_delete_passages_witness :
    ("a-passage-1" : String) ≠ "" ∧
      ((pmBothW.agentPassages.any (fun r => r.id = "a-passage-1") = true →
          delete_agent_passage_by_id "a-passage-1" pmBothW
            = (.ok true,
              { pmBothW with
                agentPassages := pmBothW.agentPassages.filter
                  (fun r => ¬ r.id = "a-passage-1")
                vectorRows := pmBothW.vectorRows.filter
                  (fun r => ¬ r.passageId = "a-passage-1") })) ∧
        (pmBothW.sourcePassages.any (fun r => r.id = "a-passage-1") = true →
          delete_source_passage_by_id "a-passage-1" pmBothW
            = (.ok true,
              { pmBothW with
                sourcePassages := pmBothW.sourcePassages.filter
                  (fun r => ¬ r.id = "a-passage-1") }))) :=
  ⟨by decide, C5_delete_passages "a-passage-1" pmBothW (by decide)⟩

/-! ## Claim C7 -/

/-- C7 (corrected): `store_embedding` performs no emptiness check — it
upserts for every embedding, the empty one included. For any store and any
embedding, after the call every row keyed by the passage id holds exactly
the new embedding and metadata, such a row exists, and all rows with other
ids are exactly those of the original store. -/
theorem C7_upsert (store : List VRow) (passageId : String) (embedding : List ℚ)
    (metadata : Option VMeta) :
    (∀ r ∈ store_embedding store passageId embedding metadata,
        r.passageId = passageId → r = ⟨passageId, embedding, metadata⟩) ∧
      (∃ r ∈ store_embedding store passageId embedding metadata,
        r.passageId = passageId) ∧
      (∀ r : VRow, r.passageId ≠ passageId →
        (r ∈ store_embedding store passageId embedding metadata ↔ r ∈ store)) := by
  unfold store_embedding
  by_cases hmem : store.any (fun r => r.passageId = passageId) = true
  · rw [if_pos hmem]
    refine ⟨?_, ?_, ?_⟩
    · intro r hr hrid
      rcases List.mem_map.mp hr with ⟨x, hx, hxr⟩
      by_cases hxid : x.passageId = passageId
      · rw [if_pos hxid] at hxr; exact hxr.symm
      · rw [if_neg hxid] at hxr; rw [← hxr] at hrid; exact absurd hrid hxid
    · rcases List.any_eq_true.mp hmem with ⟨x, hx, hxid⟩
      refine ⟨⟨passageId, embedding, metadata⟩, ?_, rfl⟩
      exact List.mem_map.mpr ⟨x, hx, by rw [if_pos (of_decide_eq_true hxid)]⟩
    · intro r hrid
      constructor
      · intro hr
        rcases List.mem_map.mp hr with ⟨x, hx, hxr⟩
        by_cases hxid : x.passageId = passageId
        · rw [if_pos hxid] at hxr; rw [← hxr] at hrid; simp at hrid
        · rw [if_neg hxid] at hxr; rw [← hxr]; exact hx
      · intro hr
        refine List.mem_map.mpr ⟨r, hr, ?_⟩
        rw [if_neg (by intro h; exact hrid h)]
  · rw [if_neg hmem]
    refine ⟨?_, ?_, ?_⟩
    · intro r hr hrid
      rcases List.mem_append.mp hr with hr | hr
      · exfalso
        apply hmem
        exact List.any_eq_true.mpr ⟨r, hr, decide_eq_true hrid⟩
      · simpa using hr
    · exact ⟨⟨passageId, embedding, metadata⟩, List.mem_append.mpr (Or.inr (by simp)), rfl⟩
    · intro r hrid
      constructor
      · intro hr
        rcases List.mem_append.mp hr with hr | hr
        · exact hr
        · simp at hr; rw [hr] at hrid; simp at hrid
      · intro hr
        exact List.mem_append.mpr (Or.inl hr)

/-- C7 counterexample: upserting an empty embedding into an empty store does
not fail; it stores a row (with `embedding_dim = len([]) = 0`), refuting
"fails with InvalidArgument and stores no row". -/
theorem C7_counterexample :
    store_embedding [] "p-1" ([] : List ℚ) none = [⟨"p-1", [], none⟩] ∧
      store_embedding [] "p-1" ([] : List ℚ) none ≠ [] := by
  constructor
  · rfl
  · intro h; cases h

end LettaOG

namespace LettaOG

/-! ## Audit risk scoring (`letta/server/audit_system.py`) -/

/-- `AuditEventType` (audit_system.py:38-69). -/
inductive AuditEventType where
  | userSessionStart
  | userSessionEnd
  | documentUpload
  | documentAccess
  | documentProcessing
  | ragQuery
  | ragSearch
  | ragResponse
  | agentCreation
  | agentMessage
  | agentMemoryAccess
  | financialDataAccess
  | riskAssessmentQuery
  | productInfoQuery
  | complianceCheck
  | systemError
  | authentication
  | permissionCheck
  | embeddingGeneration
deriving DecidableEq, Repr

/-- The `base_scores` dict of `_calculate_risk_score`
(audit_system.py:266-279) with its `.get(event_type, 15)` default. -/
def base_scores : AuditEventType → Int
  | .userSessionStart => 10
  | .documentUpload => 30
  | .documentAccess => 25
  | .ragQuery => 20
  | .ragSearch => 15
  | .agentMessage => 15
  | .financialDataAccess => 50
  | .riskAssessmentQuery => 40
  | .productInfoQuery => 30
  | .complianceCheck => 35
  | .systemError => 60
  | .authentication => 25
  | _ => 15

/-- The `risk_level` field of `analyze_financial_content`
(audit_system.py:133-138): "low", "medium" or "high". -/
inductive RiskLevel where
  | low
  | medium
  | high
deriving DecidableEq, Repr

/-- The fields of the `analyze_financial_content` result dict that
`_calculate_risk_score` reads (audit_system.py:284-292). -/
structure FinancialAnalysis where
  sensitiveDataDetected : Bool
  riskLevel : RiskLevel
  /-- `compliance_issues`; Python truthiness: the empty list contributes
  nothing. -/
  complianceIssues : List String
deriving DecidableEq, Repr

/-- The `details` keys read by `_calculate_risk_score`
(audit_system.py:297-300): `details.get("failed_attempts", 0)` and the
truthiness of `details.get("bulk_operation")`. -/
structure RiskDetails where
  failedAttempts : Int
  bulkOperation : Bool
deriving DecidableEq, Repr

/-- `ServerAuditSystem._calculate_risk_score` (audit_system.py:263-302),
translated statement by statement: base score from the table, the
financial-analysis adjustments, the failure / repeated-failure / bulk
adjustments, capped by `min(score, 100)`. -/
def calculate_risk_score (eventType : AuditEventType) (details : RiskDetails)
    (success : Bool) (financialAnalysis : Option FinancialAnalysis) : Int :=
  let score := base_scores eventType
  let score := match financialAnalysis with
    | none => score
    | some fa =>
        let score := if fa.sensitiveDataDetected then score + 30 else score
        let score :=
          if fa.riskLevel = .high then score + 25
          else if fa.riskLevel = .medium then score + 15
          else score
        if fa.complianceIssues ≠ [] then score + 20 else score
  let score := if success = false then score + 25 else score
  let score := if details.failedAttempts > 2 then score + 20 else score
  let score := if details.bulkOperation then score + 15 else score
  min score 100

theorem base_scores_bounds (t : AuditEventType) :
    10 ≤ base_scores t ∧ base_scores t ≤ 60 := by
  cases t <;> simp [base_scores]

/-! ## Claim C9 -/

set_option maxHeartbeats 1600000 in
/-- C9 (confirmed): the computed risk score equals the event type's base
score plus +30 for a sensitive-data hit, +25 / +15 for high- / medium-risk
content, +20 for a compliance-rule miss, +25 on failure, +20 past the
repeated-failure threshold (`failed_attempts > 2`) and +15 for a bulk
marker, capped at 100; consequently it always lies in 0–100. -/
theorem C9_risk_score (eventType : AuditEventType) (details : RiskDetails)
    (success : Bool) (fa : Option FinancialAnalysis) :
    calculate_risk_score eventType details success fa
        = min
          (base_scores eventType
            + (match fa with
              | none => 0
              | some a =>
                  (if a.sensitiveDataDetected then 30 else 0)
                    + (if a.riskLevel = .high then 25
                      else if a.riskLevel = .medium then 15 else 0)
                    + (if a.complianceIssues ≠ [] then 20 else 0))
            + (if success = false then 25 else 0)
            + (if details.failedAttempts > 2 then 20 else 0)
            + (if details.bulkOperation then 15 else 0))
          100 ∧
      0 ≤ calculate_risk_score eventType details success fa ∧
      calculate_risk_score eventType details success fa ≤ 100 := by
  have hbase := base_scores_bounds eventType
  refine ⟨?_, ?_, ?_⟩ <;>
    · unfold calculate_risk_score
      cases fa with
      | none => dsimp only; split_ifs <;> omega
      | some a => dsimp only; split_ifs <;> omega

end LettaOG

namespace LettaOG

/-! ## Vector type handler (`letta/server/vector_type_handler.py`)

`VectorType.process_bind_param` renders a Python list of numbers as
`"[" + ",".join(map(str, v)) + "]"`; `process_result_value` parses a string
back through `json.loads` when it is bracketed, returning the raw string on
parse failure, and both directions pass `None` through. Numbers are
modelled as integers (exact decimal rendering); strings as `List Char`. -/

/-- Decimal digits of `n`, most significant first — the `str(n)` of a
non-negative number. -/
def natToChars (n : Nat) : List Char :=
  if n < 10 then [Nat.digitChar n]
  else natToChars (n / 10) ++ [Nat.digitChar (n % 10)]
termination_by n
decreasing_by exact Nat.div_lt_self (by omega) (by omega)

/-- `str(z)` for an integer: a leading minus sign for negatives. -/
def intToChars (z : Int) : List Char :=
  if z < 0 then '-' :: natToChars z.natAbs else natToChars z.natAbs

def charDigit (c : Char) : Option Nat :=
  if '0' ≤ c ∧ c ≤ '9' then some (c.toNat - 48) else none

/-- Accumulating decimal reader: fails on any non-digit character. -/
def parseNatAux (acc : Nat) : List Char → Option Nat
  | [] => some acc
  | c :: cs =>
    match charDigit c with
    | some d => parseNatAux (10 * acc + d) cs
    | none => none

/-- JSON-style number reading of a non-negative decimal numeral. -/
def parseNatChars : List Char → Option Nat
  | [] => none
  | cs => parseNatAux 0 cs

/-- JSON-style number reading of a decimal integer numeral. -/
def parseIntChars (l : List Char) : Option Int :=
  match l with
  | [] => none
  | c :: cs =>
    if c = '-' then (parseNatChars cs).map (fun n => -(n : Int))
    else (parseNatChars (c :: cs)).map (fun n => (n : Int))

/-- `str.split(sep)` semantics on character lists. -/
def splitOnChar (sep : Char) : List Char → List (List Char)
  | [] => [[]]
  | c :: cs =>
    match splitOnChar sep cs with
    | [] => [[c]]
    | y :: ys => if c = sep then [] :: y :: ys else (c :: y) :: ys

/-- `sep.join(chunks)` semantics on character lists. -/
def joinChar (sep : Char) : List (List Char) → List Char
  | [] => []
  | [x] => x
  | x :: xs => x ++ sep :: joinChar sep xs

/-- Pointwise fallible map (the element-wise part of `json.loads` on an
array of numbers). -/
def mapOption (f : α → Option β) : List α → Option (List β)
  | [] => some []
  | x :: xs =>
    match f x, mapOption f xs with
    | some y, some ys => some (y :: ys)
    | _, _ => none

/-- `json.loads` restricted to the flat arrays of integer numerals that
`process_bind_param` emits; `none` is a raised `JSONDecodeError`. -/
def parse_json_vector (s : List Char) : Option (List Int) :=
  match s with
  | [] => none
  | c :: rest =>
    if c = '[' ∧ rest.getLast? = some ']' then
      if rest.dropLast = [] then some []
      else mapOption parseIntChars (splitOnChar ',' rest.dropLast)
    else none

/-- `VectorType.process_bind_param` (vector_type_handler.py:17-26) on the
`None` and list inputs: `None` passes through; a list becomes
`f"[{','.join(map(str, value))}]"`. -/
def process_bind_param : Option (List Int) → Option (List Char)
  | none => none
  | some v => some ('[' :: joinChar ',' (v.map intToChars) ++ [']'])

/-- A Python value coming back from `process_result_value`: either the
parsed list or the raw string. -/
inductive PyValue where
  | asList (v : List Int)
  | asStr (s : List Char)
deriving DecidableEq, Repr

/-- `VectorType.process_result_value` (vector_type_handler.py:28-40):
`None` passes through; a `"[...]"` string is fed to `json.loads`, falling
back to the raw string when parsing raises; anything else is returned as
the raw string. -/
def process_result_value : Option (List Char) → Option PyValue
  | none => none
  | some s =>
    match s with
    | [] => some (.asStr [])
    | c :: rest =>
      if c = '[' ∧ rest.getLast? = some ']' then
        match parse_json_vector (c :: rest) with
        | some v => some (.asList v)
        | none => some (.asStr (c :: rest))
      else some (.asStr (c :: rest))

/-! ### Decimal round-trip lemmas -/

theorem natToChars_ne_nil (n : Nat) : natToChars n ≠ [] := by
  rw [natToChars]; split <;> simp

theorem charDigit_digitChar (d : Nat) (h : d < 10) :
    charDigit (Nat.digitChar d) = some d := by
  interval_cases d <;> decide

theorem natToChars_digits (n : Nat) :
    ∀ c ∈ natToChars n, '0' ≤ c ∧ c ≤ '9' := by
  induction n using Nat.strong_induction_on with
  | _ n ih =>
    intro c hc
    rw [natToChars] at hc
    split at hc
    case isTrue h =>
      simp only [List.mem_singleton] at hc
      subst hc
      interval_cases n <;> decide
    case isFalse h =>
      rcases List.mem_append.mp hc with hc | hc
      · exact ih (n / 10) (Nat.div_lt_self (by omega) (by omega)) c hc
      · simp only [List.mem_singleton] at hc
        subst hc
        have h10 : n % 10 < 10 := Nat.mod_lt _ (by omega)
        interval_cases hm : (n % 10) <;> decide

theorem parseNatAux_append (n : Nat) :
    ∀ (acc : Nat) (rest : List Char),
      parseNatAux acc (natToChars n ++ rest)
        = parseNatAux (acc * 10 ^ (natToChars n).length + n) rest := by
  induction n using Nat.strong_induction_on with
  | _ n ih =>
    intro acc rest
    rw [natToChars]
    split
    case isTrue h =>
      simp only [List.singleton_append, List.length_singleton, parseNatAux,
        charDigit_digitChar n h, pow_one, List.nil_append]
      ring_nf
      rfl
    case isFalse h =>
      rw [List.append_assoc,
        ih (n / 10) (Nat.div_lt_self (by omega) (by omega)) acc
          ([Nat.digitChar (n % 10)] ++ rest)]
      simp only [List.singleton_append, parseNatAux,
        charDigit_digitChar (n % 10) (Nat.mod_lt _ (by omega)),
        List.length_append, List.length_singleton, List.nil_append]
      have hn : 10 * (n / 10) + n % 10 = n := Nat.div_add_mod n 10
      have harith :
          10 * (acc * 10 ^ (natToChars (n / 10)).length + n / 10) + n % 10
            = acc * 10 ^ ((natToChars (n / 10)).length + 1) + n := by
        rw [pow_succ]
        calc 10 * (acc * 10 ^ (natToChars (n / 10)).length + n / 10) + n % 10
            = acc * (10 ^ (natToChars (n / 10)).length * 10)
                + (10 * (n / 10) + n % 10) := by ring
          _ = acc * (10 ^ (natToChars (n / 10)).length * 10) + n := by rw [hn]
      rw [harith]
      rfl

theorem parseNat_natToChars (n : Nat) : parseNatChars (natToChars n) = some n := by
  cases hl : natToChars n with
  | nil => exact absurd hl (natToChars_ne_nil n)
  | cons c cs =>
    show parseNatAux 0 (c :: cs) = some n
    rw [← hl]
    have h := parseNatAux_append n 0 []
    simpa [parseNatAux] using h

theorem intToChars_ne_nil (z : Int) : intToChars z ≠ [] := by
  unfold intToChars
  split
  · simp
  · exact natToChars_ne_nil _

theorem parseInt_intToChars (z : Int) : parseIntChars (intToChars z) = some z := by
  unfold intToChars
  by_cases hz : z < 0
  · rw [if_pos hz]
    show parseIntChars ('-' :: natToChars z.natAbs) = some z
    have hval : -((z.natAbs : Nat) : Int) = z := by omega
    show (if ('-' : Char) = '-' then
        (parseNatChars (natToChars z.natAbs)).map (fun n => -(n : Int))
      else (parseNatChars ('-' :: natToChars z.natAbs)).map (fun n => (n : Int)))
        = some z
    rw [if_pos rfl, parseNat_natToChars]
    show some (-((z.natAbs : Nat) : Int)) = some z
    rw [hval]
  · rw [if_neg hz]
    cases hl : natToChars z.natAbs with
    | nil => exact absurd hl (natToChars_ne_nil _)
    | cons c cs =>
      have hc : '0' ≤ c ∧ c ≤ '9' :=
        natToChars_digits _ c (hl ▸ List.mem_cons_self c cs)
      have hcne : c ≠ '-' := by
        intro hcontra
        rw [hcontra] at hc
        revert hc
        decide
      show (if c = '-' then (parseNatChars cs).map (fun n => -(n : Int))
        else (parseNatChars (c :: cs)).map (fun n => (n : Int))) = some z
      rw [if_neg hcne, ← hl, parseNat_natToChars]
      have hval : ((z.natAbs : Nat) : Int) = z := by omega
      show some ((z.natAbs : Nat) : Int) = some z
      rw [hval]

theorem intToChars_not_special (z : Int) :
    ',' ∉ intToChars z ∧ '[' ∉ intToChars z ∧ ']' ∉ intToChars z := by
  have hd : ∀ c ∈ intToChars z, c = '-' ∨ ('0' ≤ c ∧ c ≤ '9') := by
    intro c hc
    unfold intToChars at hc
    split at hc
    · rcases List.mem_cons.mp hc with hc | hc
      · exact Or.inl hc
      · exact Or.inr (natToChars_digits _ c hc)
    · exact Or.inr (natToChars_digits _ c hc)
    
  refine ⟨?_, ?_, ?_⟩ <;>
    · intro hmem
      rcases hd _ hmem with h | h
      · cases h
      · revert h
        decide

theorem splitOnChar_ne_nil (sep : Char) (l : List Char) : splitOnChar sep l ≠ [] := by
  cases l with
  | nil => simp [splitOnChar]
  | cons c cs =>
    cases hsr : splitOnChar sep cs with
    | nil => simp [splitOnChar, hsr]
    | cons y ys =>
      simp only [splitOnChar, hsr]
      split <;> simp

theorem splitOnChar_of_not_mem (sep : Char) (l : List Char) (h : sep ∉ l) :
    splitOnChar sep l = [l] := by
  induction l with
  | nil => rfl
  | cons c cs ih =>
    have hc : c ≠ sep := fun hcontra => h (hcontra ▸ List.mem_cons_self c cs)
    have hcs : sep ∉ cs := fun hcontra => h (List.mem_cons_of_mem c hcontra)
    simp only [splitOnChar, ih hcs]
    rw [if_neg hc]

theorem splitOnChar_append (sep : Char) (xs rest : List Char) (h : sep ∉ xs) :
    splitOnChar sep (xs ++ sep :: rest) = xs :: splitOnChar sep rest := by
  induction xs with
  | nil =>
    show splitOnChar sep (sep :: rest) = [] :: splitOnChar sep rest
    cases hsr : splitOnChar sep rest with
    | nil => exact absurd hsr (splitOnChar_ne_nil sep rest)
    | cons y ys =>
      simp only [splitOnChar, hsr]
      simp
  | cons c cs ih =>
    have hc : c ≠ sep := fun hcontra => h (hcontra ▸ List.mem_cons_self c cs)
    have hcs : sep ∉ cs := fun hcontra => h (List.mem_cons_of_mem c hcontra)
    show splitOnChar sep (c :: (cs ++ sep :: rest)) = (c :: cs) :: splitOnChar sep rest
    simp only [splitOnChar, ih hcs]
    rw [if_neg hc]

theorem splitOnChar_joinChar (sep : Char) (xss : List (List Char))
    (hne : xss ≠ []) (hmem : ∀ x ∈ xss, sep ∉ x) :
    splitOnChar sep (joinChar sep xss) = xss := by
  induction xss with
  | nil => exact absurd rfl hne
  | cons x xs ih =>
    cases xs with
    | nil =>
      show splitOnChar sep (joinChar sep [x]) = [x]
      rw [joinChar]
      exact splitOnChar_of_not_mem sep x (hmem x (List.mem_cons_self x []))
    | cons y ys =>
      show splitOnChar sep (x ++ sep :: joinChar sep (y :: ys)) = x :: (y :: ys)
      rw [splitOnChar_append sep x _ (hmem x (List.mem_cons_self x _)),
        ih (by simp) (fun z hz => hmem z (List.mem_cons_of_mem x hz))]

theorem mapOption_parseInt (v : List Int) :
    mapOption parseIntChars (v.map intToChars) = some v := by
  induction v with
  | nil => rfl
  | cons z zs ih =>
    show mapOption parseIntChars (intToChars z :: zs.map intToChars) = some (z :: zs)
    unfold mapOption
    rw [parseInt_intToChars, ih]

theorem joinChar_map_ne_nil (v : List Int) (h : v ≠ []) :
    joinChar ',' (v.map intToChars) ≠ [] := by
  cases v with
  | nil => exact absurd rfl h
  | cons z zs =>
    cases zs with
    | nil =>
      show joinChar ',' [intToChars z] ≠ []
      rw [joinChar]
      exact intToChars_ne_nil z
    | cons w ws =>
      show intToChars z ++ ',' :: joinChar ',' ((w :: ws).map intToChars) ≠ []
      simp

/-! ## Claim C10 -/

/-- C10 (confirmed): the text-encoded vector column round-trips —
`process_result_value (process_bind_param v)` recovers the original list of
numbers for every list, and both directions map `None` to `None`. -/
theorem C10_vector_type_round_trip :
    process_bind_param none = none ∧
      process_result_value none = none ∧
      ∀ v : List Int,
        process_result_value (process_bind_param (some v)) = some (.asList v) := by
  refine ⟨rfl, rfl, ?_⟩
  intro v
  show process_result_value (some ('[' :: joinChar ',' (v.map intToChars) ++ [']'])) = _
  have hlast : (joinChar ',' (v.map intToChars) ++ [']']).getLast? = some ']' := by
    simp
  have hdrop : (joinChar ',' (v.map intToChars) ++ [']']).dropLast
      = joinChar ',' (v.map intToChars) := by
    simp
  show (if ('[' : Char) = '[' ∧ (joinChar ',' (v.map intToChars) ++ [']']).getLast?
        = some ']' then
      match parse_json_vector ('[' :: (joinChar ',' (v.map intToChars) ++ [']'])) with
      | some w => some (PyValue.asList w)
      | none => some (.asStr ('[' :: (joinChar ',' (v.map intToChars) ++ [']'])))
    else some (.asStr ('[' :: (joinChar ',' (v.map intToChars) ++ [']']))))
      = some (.asList v)
  rw [if_pos ⟨rfl, hlast⟩]
  have hparse1 : parse_json_vector ('[' :: (joinChar ',' (v.map intToChars) ++ [']']))
      = (if (joinChar ',' (v.map intToChars) ++ [']']).dropLast = [] then
          some []
        else mapOption parseIntChars
          (splitOnChar ',' (joinChar ',' (v.map intToChars) ++ [']']).dropLast)) := by
    show (if ('[' : Char) = '[' ∧ (joinChar ',' (v.map intToChars) ++ [']']).getLast?
          = some ']' then
        (if (joinChar ',' (v.map intToChars) ++ [']']).dropLast = [] then some []
          else mapOption parseIntChars
            (splitOnChar ',' (joinChar ',' (v.map intToChars) ++ [']']).dropLast))
      else none) = _
    rw [if_pos ⟨rfl, hlast⟩]
  rw [hparse1, hdrop]
  cases hv : v with
  | nil => rfl
  | cons z zs =>
    rw [if_neg (joinChar_map_ne_nil (z :: zs) (by simp))]
    rw [splitOnChar_joinChar ',' ((z :: zs).map intToChars)
      (by simp)
      (fun x hx => by
        rcases List.mem_map.mp hx with ⟨z', _, hz'⟩
        rw [← hz']
        exact (intToChars_not_special z').1)]
    rw [mapOption_parseInt]

end LettaOG

namespace LettaOG

/-! ## Similarity search (`OpenGaussVectorStore.search_similar_passages`,
opengauss_functions.py:179-232)

The method builds a SQL string and a parameter list and hands both to
`cursor.execute`. The query text interpolates
`cosine_similarity_sql("embedding", "%s::float[]")`
(opengauss_functions.py:154-177) twice — in the SELECT list and again in the
HAVING clause — and each copy of that expression contains TWO `%s`
placeholders (the position-joined dot product and the second magnitude).
With the `embedding_dim = %s` filter, `>= %s` and `LIMIT %s;` the query
therefore holds 7 placeholders (6 without the dimension filter), while
`params` is `[query_embedding, query_embedding] (+ [embedding_dim])
+ [query_embedding, min_similarity, top_k]` — 6 values (resp. 5). psycopg2
interpolates parameters client-side, so every call raises a formatting
error before any SQL reaches the database; the `except` block at
opengauss_functions.py:230-232 logs and re-raises. The model therefore has
two layers: the query text and parameter list exactly as the source builds
them, with the placeholder/parameter count check of the client-side
interpolation (`search_similar_passages`, which consequently always returns
the error); and the intended semantics of the query text
(`ordered_scored_results`), reachable only in the dead branch where the
counts would match.

For the intended semantics: the real-valued similarity of a row is
`score_val (dot q q) (dot q e, dot e e) = dot q e / (sqrt (dot q q) * sqrt (dot e e))`.
The executable model compares similarities through the rational order key
`score_key d qq n = sign d * d^2 / (qq * n)` (and thresholds through
`sgnSq m = sign m * m^2`): `x ↦ sign x * x^2` is strictly monotone on `ℝ`,
so these comparisons agree exactly with real-number comparisons on every
row whose self-dot is positive — proved below in `score_key_le_iff` and
`sim_ge_iff`. -/

/-- The SQL dot product of `cosine_similarity_sql`: `unnest ... WITH
ORDINALITY` joined on the index multiplies the vectors position by position
(up to the shorter length) and sums. -/
def dot (xs ys : List ℚ) : ℚ := (List.zipWith (· * ·) xs ys).sum

/-- Sign-preserving square: the strictly monotone image of a similarity
value used as a rational order key. -/
def sgnSq (x : ℚ) : ℚ := if 0 ≤ x then x ^ 2 else -(x ^ 2)

/-- Rational order key of the similarity `d / (sqrt qq * sqrt n)`. -/
def score_key (d qq n : ℚ) : ℚ :=
  if qq ≤ 0 ∨ n ≤ 0 then 0
  else if 0 ≤ d then d ^ 2 / (qq * n) else -(d ^ 2 / (qq * n))

/-- The `HAVING similarity >= min_similarity` test, through order keys. -/
def sim_ge (d qq n m : ℚ) : Bool := decide (sgnSq m ≤ score_key d qq n)

/-- The `WHERE embedding_dim = %s` clause: skipped when the parameter is
NULL or 0 (`if embedding_dim:` truthiness). -/
def dim_filter (store : List VRow) : Option Nat → List VRow
  | some d =>
      if d ≠ 0 then store.filter (fun r => decide (r.embedding.length = d)) else store
  | none => store

/-- The SELECT list: `(passage_id, similarity)` where the similarity is
carried as the pair (dot product with the query, self dot product) that
determines it. -/
def scored_rows (q : List ℚ) (rows : List VRow) : List (String × ℚ × ℚ) :=
  rows.map (fun r => (r.passageId, dot q r.embedding, dot r.embedding r.embedding))

/-- The intended semantics of the query text built by
`search_similar_passages` (its docstring's contract): dimension filter,
similarity threshold (HAVING), `ORDER BY similarity DESC` (no tie-break
column), `LIMIT top_k`. Only the dead branch of `search_similar_passages`
below refers to it: the query never executes. -/
def ordered_scored_results (store : List VRow) (q : List ℚ) (top_k : Nat)
    (min_similarity : ℚ) (embedding_dim : Option Nat) : List (String × ℚ × ℚ) :=
  (((scored_rows q (dim_filter store embedding_dim)).filter
        (fun x => sim_ge x.2.1 (dot q q) x.2.2 min_similarity)).mergeSort
      (fun a b => decide (score_key b.2.1 (dot q q) b.2.2
        ≤ score_key a.2.1 (dot q q) a.2.2))).take top_k

/-- Count of `%s` conversion specifiers in a format string (the query text
contains no other `%` characters, in particular no `%%`). -/
def countPS : List Char → Nat
  | [] => 0
  | '%' :: 's' :: rest => countPS rest + 1
  | _ :: rest => countPS rest

/-- `OpenGaussVectorStore.cosine_similarity_sql`
(opengauss_functions.py:154-177): the SQL expression text, with the two
column/expression arguments interpolated — `embedding2` appears twice. -/
def cosine_similarity_sql (embedding1 embedding2 : String) : String :=
  "\n        (\n            -- Dot product\n            (SELECT SUM(a.val * b.val)\n" ++
    "             FROM unnest(" ++ embedding1 ++ ") WITH ORDINALITY a(val, idx)\n" ++
    "             JOIN unnest(" ++ embedding2 ++
    ") WITH ORDINALITY b(val, idx) ON a.idx = b.idx)\n" ++
    "        ) / (\n            -- Magnitude of first vector\n" ++
    "            sqrt((SELECT SUM(val * val) FROM unnest(" ++ embedding1 ++
    ") AS val)) *\n            -- Magnitude of second vector\n" ++
    "            sqrt((SELECT SUM(val * val) FROM unnest(" ++ embedding2 ++
    ") AS val))\n        )\n        "

/-- The vector-store table name: `OpenGaussVectorStore.__init__` default
(also the mirror-table name of spec §6). It contains no placeholder. -/
def table_name : String := "passage_embeddings"

/-- The `where_conditions` list of `search_similar_passages`
(opengauss_functions.py:201-206): one dimension condition when
`embedding_dim` is truthy. -/
def where_conditions (embedding_dim : Option Nat) : List String :=
  match embedding_dim with
  | some d => if d ≠ 0 then ["embedding_dim = %s"] else []
  | none => []

/-- The query f-string of `search_similar_passages`
(opengauss_functions.py:208-220): SELECT with the similarity expression,
optional WHERE, HAVING with the similarity expression again, ORDER BY,
LIMIT. -/
def search_query (embedding_dim : Option Nat) : String :=
  "\n                    SELECT passage_id, " ++
    cosine_similarity_sql "embedding" "%s::float[]" ++
    " as similarity\n                    FROM " ++ table_name ++
    "\n                    " ++
    (if where_conditions embedding_dim ≠ [] then
      "WHERE " ++ String.intercalate " AND " (where_conditions embedding_dim)
    else "") ++
    "\n                    HAVING " ++
    cosine_similarity_sql "embedding" "%s::float[]" ++
    " >= %s\n                    ORDER BY similarity DESC\n" ++
    "                    LIMIT %s;\n                "

/-- A value bound into the query (the entries of `params`). -/
inductive SqlParam where
  | floatArray (v : List ℚ)
  | intVal (n : Nat)
  | ratVal (x : ℚ)
deriving DecidableEq, Repr

/-- The `params` list of `search_similar_passages`
(opengauss_functions.py:202-222): `[query_embedding, query_embedding]`,
then the dimension when truthy, then
`[query_embedding, min_similarity, top_k]`. -/
def search_params (q : List ℚ) (top_k : Nat) (min_similarity : ℚ)
    (embedding_dim : Option Nat) : List SqlParam :=
  ([.floatArray q, .floatArray q] ++
    (match embedding_dim with
      | some d => if d ≠ 0 then [.intVal d] else []
      | none => [])) ++
    [.floatArray q, .ratVal min_similarity, .intVal top_k]

/-- `OpenGaussVectorStore.search_similar_passages`
(opengauss_functions.py:179-232): builds `search_query` and `search_params`
and calls `cursor.execute`. psycopg2 interpolates the parameters into the
`%s` slots client-side and raises when the counts disagree — which, for
this query, they always do (`C6_placeholder_mismatch` below) — so the
`except` block logs and re-raises and the method never returns a result
list. The `.ok` branch holds the intended semantics of the query text and
is dead code. -/
def search_similar_passages (store : List VRow) (q : List ℚ) (top_k : Nat)
    (min_similarity : ℚ) (embedding_dim : Option Nat) :
    Except String (List (String × ℚ × ℚ)) :=
  if countPS (search_query embedding_dim).data
      = (search_params q top_k min_similarity embedding_dim).length then
    .ok (ordered_scored_results store q top_k min_similarity embedding_dim)
  else
    .error "not enough arguments for format string"

/-- The real value of the similarity carried as a `(d, n)` pair, for a query
with self dot product `qq`. -/
noncomputable def score_val (qq : ℚ) (p : ℚ × ℚ) : ℝ :=
  ((p.1 : ℚ) : ℝ) / (Real.sqrt ((qq : ℚ) : ℝ) * Real.sqrt ((p.2 : ℚ) : ℝ))

/-- The cosine similarity computed by `cosine_similarity_sql`. -/
noncomputable def cosine_similarity (xs ys : List ℚ) : ℝ :=
  ((dot xs ys : ℚ) : ℝ)
    / (Real.sqrt ((dot xs xs : ℚ) : ℝ) * Real.sqrt ((dot ys ys : ℚ) : ℝ))

theorem dot_cons (a b : ℚ) (xs ys : List ℚ) :
    dot (a :: xs) (b :: ys) = a * b + dot xs ys := by
  simp [dot]

theorem dot_self_nonneg (xs : List ℚ) : 0 ≤ dot xs xs := by
  induction xs with
  | nil => simp [dot]
  | cons a xs ih =>
      rw [dot_cons]
      nlinarith [mul_self_nonneg a]

theorem dot_cauchy_schwarz (xs : List ℚ) :
    ∀ ys, (dot xs ys) ^ 2 ≤ dot xs xs * dot ys ys := by
  induction xs with
  | nil =>
      intro ys
      simp [dot]
  | cons a xs ih =>
      intro ys
      cases ys with
      | nil => simp [dot]
      | cons b ys =>
          have h1 := ih ys
          have hA := dot_self_nonneg xs
          have hB := dot_self_nonneg ys
          rw [dot_cons, dot_cons, dot_cons]
          have h2 : (2 * (a * b) * dot xs ys) ^ 2
              ≤ (a ^ 2 * dot ys ys + dot xs xs * b ^ 2) ^ 2 := by
            nlinarith [sq_nonneg (a ^ 2 * dot ys ys - dot xs xs * b ^ 2),
              mul_nonneg (mul_nonneg (sq_nonneg a) (sq_nonneg b)) (sub_nonneg.mpr h1)]
          have h3 : 0 ≤ a ^ 2 * dot ys ys + dot xs xs * b ^ 2 :=
            add_nonneg (mul_nonneg (sq_nonneg a) hB) (mul_nonneg hA (sq_nonneg b))
          have key : 2 * (a * b) * dot xs ys
              ≤ a ^ 2 * dot ys ys + dot xs xs * b ^ 2 := by
            rcases le_or_lt (2 * (a * b) * dot xs ys)
                (a ^ 2 * dot ys ys + dot xs xs * b ^ 2) with hk | hk
            · exact hk
            · exfalso
              have hx : 0 < 2 * (a * b) * dot xs ys := lt_of_le_of_lt h3 hk
              nlinarith [h2, hk, hx, h3]
          nlinarith [key, h1]

theorem cosine_similarity_bounds (xs ys : List ℚ) :
    -1 ≤ cosine_similarity xs ys ∧ cosine_similarity xs ys ≤ 1 := by
  have hA : (0 : ℝ) ≤ ((dot xs xs : ℚ) : ℝ) := by exact_mod_cast dot_self_nonneg xs
  have hB : (0 : ℝ) ≤ ((dot ys ys : ℚ) : ℝ) := by exact_mod_cast dot_self_nonneg ys
  have hCS : (((dot xs ys : ℚ) : ℝ)) ^ 2
      ≤ ((dot xs xs : ℚ) : ℝ) * ((dot ys ys : ℚ) : ℝ) := by
    exact_mod_cast dot_cauchy_schwarz xs ys
  unfold cosine_similarity
  rcases eq_or_lt_of_le (mul_nonneg (Real.sqrt_nonneg ((dot xs xs : ℚ) : ℝ))
      (Real.sqrt_nonneg ((dot ys ys : ℚ) : ℝ))) with hD | hD
  · rw [← hD, div_zero]
    norm_num
  · have habs : |((dot xs ys : ℚ) : ℝ)|
        ≤ Real.sqrt ((dot xs xs : ℚ) : ℝ) * Real.sqrt ((dot ys ys : ℚ) : ℝ) := by
      rw [← Real.sqrt_sq_eq_abs, ← Real.sqrt_mul hA]
      exact Real.sqrt_le_sqrt hCS
    exact abs_le.mp (by rw [abs_div, abs_of_pos hD]; exact (div_le_one hD).mpr habs)

/-- `x ↦ sign x * x^2` is an order embedding of `ℝ`. -/
theorem sgnSq_real_le_iff (x y : ℝ) :
    ((if 0 ≤ x then x ^ 2 else -(x ^ 2)) ≤ (if 0 ≤ y then y ^ 2 else -(y ^ 2)))
      ↔ x ≤ y := by
  split_ifs with hx hy hy
  · constructor
    · intro h
      by_contra hlt
      push_neg at hlt
      have hxy : 0 < x + y := by linarith
      have hp := mul_pos (sub_pos.mpr hlt) hxy
      nlinarith [hp, h]
    · intro h
      nlinarith [mul_nonneg (sub_nonneg.mpr h) (add_nonneg hx hy)]
  · push_neg at hy
    constructor
    · intro h
      exfalso
      have hyn : 0 < -y := by linarith
      nlinarith [h, sq_nonneg x, mul_pos hyn hyn]
    · intro h
      exfalso
      linarith
  · push_neg at hx
    constructor
    · intro _
      linarith
    · intro _
      nlinarith [sq_nonneg x, sq_nonneg y]
  · push_neg at hx hy
    constructor
    · intro h
      by_contra hlt
      push_neg at hlt
      have hxy : x + y < 0 := by linarith
      have hp := mul_neg_of_pos_of_neg (sub_pos.mpr hlt) hxy
      nlinarith [hp, h]
    · intro h
      nlinarith [mul_nonneg (sub_nonneg.mpr h) (by linarith : (0 : ℝ) ≤ -(x + y))]

/-- For positive `qq` and `n`, the rational order key is the sign-preserving
square of the real similarity value, scaled by `1 / qq`. -/
theorem score_key_cast (d qq n : ℚ) (hqq : 0 < qq) (hn : 0 < n) :
    ((score_key d qq n : ℚ) : ℝ)
      = (if 0 ≤ score_val qq (d, n) then score_val qq (d, n) ^ 2
        else -(score_val qq (d, n) ^ 2)) := by
  have hqq' : (0 : ℝ) < ((qq : ℚ) : ℝ) := by exact_mod_cast hqq
  have hn' : (0 : ℝ) < ((n : ℚ) : ℝ) := by exact_mod_cast hn
  have hden : 0 < Real.sqrt ((qq : ℚ) : ℝ) * Real.sqrt ((n : ℚ) : ℝ) :=
    mul_pos (Real.sqrt_pos.mpr hqq') (Real.sqrt_pos.mpr hn')
  have hsign : (0 ≤ score_val qq (d, n)) ↔ (0 ≤ d) := by
    unfold score_val
    rw [le_div_iff₀ hden]
    simp only [zero_mul]
    exact_mod_cast Iff.rfl
  have hsq : score_val qq (d, n) ^ 2
      = ((d : ℚ) : ℝ) ^ 2 / (((qq : ℚ) : ℝ) * ((n : ℚ) : ℝ)) := by
    unfold score_val
    rw [div_pow, mul_pow, Real.sq_sqrt (le_of_lt hqq'), Real.sq_sqrt (le_of_lt hn')]
  have hguard : ¬ (qq ≤ 0 ∨ n ≤ 0) := by
    rintro (h | h) <;> linarith
  unfold score_key
  rw [if_neg hguard]
  by_cases hd : 0 ≤ d
  · rw [if_pos hd, if_pos (hsign.mpr hd), hsq]
    push_cast
    ring
  · rw [if_neg hd, if_neg (fun hcontra => hd (hsign.mp hcontra)), hsq]
    push_cast
    ring

/-- On rows with positive self dot product, comparing rational order keys is
comparing the real similarity values. -/
theorem score_key_le_iff (qq d1 n1 d2 n2 : ℚ) (hqq : 0 < qq)
    (h1 : 0 < n1) (h2 : 0 < n2) :
    (score_key d1 qq n1 ≤ score_key d2 qq n2
      ↔ score_val qq (d1, n1) ≤ score_val qq (d2, n2)) := by
  rw [← sgnSq_real_le_iff]
  rw [← score_key_cast d1 qq n1 hqq h1, ← score_key_cast d2 qq n2 hqq h2]
  exact_mod_cast Iff.rfl

/-- The `HAVING` test is the real threshold test on such rows. -/
theorem sim_ge_iff (d qq n m : ℚ) (hqq : 0 < qq) (hn : 0 < n) :
    sim_ge d qq n m = true ↔ (m : ℝ) ≤ score_val qq (d, n) := by
  unfold sim_ge
  rw [decide_eq_true_iff]
  rw [← sgnSq_real_le_iff ((m : ℚ) : ℝ) (score_val qq (d, n))]
  rw [← score_key_cast d qq n hqq hn]
  have e2 : ((sgnSq m : ℚ) : ℝ)
      = (if 0 ≤ ((m : ℚ) : ℝ) then ((m : ℚ) : ℝ) ^ 2 else -(((m : ℚ) : ℝ) ^ 2)) := by
    unfold sgnSq
    by_cases hm : 0 ≤ m
    · rw [if_pos hm, if_pos (by exact_mod_cast hm)]
      push_cast
      ring
    · rw [if_neg hm, if_neg (by exact_mod_cast hm)]
      push_cast
      ring
  rw [← e2]
  exact_mod_cast Iff.rfl

end LettaOG

namespace LettaOG

theorem search_members (store : List VRow) (q : List ℚ) (top_k : Nat) (m : ℚ)
    (hlen : q.length ≠ 0) :
    ∀ x ∈ ordered_scored_results store q top_k m (some q.length),
      ∃ r ∈ store, x = (r.passageId, dot q r.embedding, dot r.embedding r.embedding)
        ∧ r.embedding.length = q.length
        ∧ sim_ge (dot q r.embedding) (dot q q) (dot r.embedding r.embedding) m = true := by
  intro x hx
  have hx1 : x ∈ ((scored_rows q (dim_filter store (some q.length))).filter
      (fun x => sim_ge x.2.1 (dot q q) x.2.2 m)).mergeSort
      (fun a b => decide (score_key b.2.1 (dot q q) b.2.2
        ≤ score_key a.2.1 (dot q q) a.2.2)) :=
    List.take_subset _ _ hx
  have hx2 : x ∈ (scored_rows q (dim_filter store (some q.length))).filter
      (fun x => sim_ge x.2.1 (dot q q) x.2.2 m) :=
    (List.mergeSort_perm _ _).subset hx1
  rcases List.mem_filter.mp hx2 with ⟨hx3, hge⟩
  rcases List.mem_map.mp hx3 with ⟨r, hr, hxr⟩
  have hr2 : r ∈ store.filter (fun r => decide (r.embedding.length = q.length)) := by
    simp only [dim_filter] at hr
    rwa [if_pos hlen] at hr
  rcases List.mem_filter.mp hr2 with ⟨hrs, hrl⟩
  refine ⟨r, hrs, hxr.symm, of_decide_eq_true hrl, ?_⟩
  rw [← hxr] at hge
  exact hge

/-- The intended semantics of the query text (never reached by the code):
with the dimension filter `len(query_embedding)` it yields at most `top_k`
rows, each from a stored row of matching dimension and carrying exactly its
cosine similarity against the query — a value in [-1, 1] at least
`min_similarity` — sorted by similarity descending; the text has no
tie-break column, so equal scores keep table order. -/
theorem ordered_scored_results_spec (store : List VRow) (q : List ℚ) (top_k : Nat)
    (m : ℚ) (hq : 0 < dot q q)
    (hstore : ∀ r ∈ store, 0 < dot r.embedding r.embedding) :
    (ordered_scored_results store q top_k m (some q.length)).length ≤ top_k
    ∧ (∀ x ∈ ordered_scored_results store q top_k m (some q.length),
        ∃ r ∈ store, x.1 = r.passageId ∧ r.embedding.length = q.length
          ∧ x.2 = (dot q r.embedding, dot r.embedding r.embedding)
          ∧ score_val (dot q q) x.2 = cosine_similarity q r.embedding
          ∧ -1 ≤ cosine_similarity q r.embedding
          ∧ cosine_similarity q r.embedding ≤ 1
          ∧ (m : ℝ) ≤ cosine_similarity q r.embedding)
    ∧ (ordered_scored_results store q top_k m (some q.length)).Pairwise
        (fun a b => score_val (dot q q) b.2 ≤ score_val (dot q q) a.2) := by
  have hlen : q.length ≠ 0 := by
    intro hcontra
    rw [List.length_eq_zero.mp hcontra] at hq
    simp [dot] at hq
  have hmem := search_members store q top_k m hlen
  refine ⟨List.length_take_le _ _, ?_, ?_⟩
  · intro x hx
    rcases hmem x hx with ⟨r, hrs, hxr, hrl, hge⟩
    have hn : 0 < dot r.embedding r.embedding := hstore r hrs
    have hcos : score_val (dot q q) (dot q r.embedding, dot r.embedding r.embedding)
        = cosine_similarity q r.embedding := rfl
    have hge2 : (m : ℝ)
        ≤ score_val (dot q q) (dot q r.embedding, dot r.embedding r.embedding) :=
      (sim_ge_iff _ _ _ m hq hn).mp hge
    rcases cosine_similarity_bounds q r.embedding with ⟨hb1, hb2⟩
    subst hxr
    exact ⟨r, hrs, rfl, hrl, rfl, rfl, hb1, hb2, hcos ▸ hge2⟩
  · have htrans : ∀ a b c : String × ℚ × ℚ,
        decide (score_key b.2.1 (dot q q) b.2.2 ≤ score_key a.2.1 (dot q q) a.2.2) = true →
        decide (score_key c.2.1 (dot q q) c.2.2 ≤ score_key b.2.1 (dot q q) b.2.2) = true →
        decide (score_key c.2.1 (dot q q) c.2.2 ≤ score_key a.2.1 (dot q q) a.2.2)
          = true := by
      intro a b c hab hbc
      rw [decide_eq_true_iff] at *
      exact le_trans hbc hab
    have htotal : ∀ a b : String × ℚ × ℚ,
        (decide (score_key b.2.1 (dot q q) b.2.2 ≤ score_key a.2.1 (dot q q) a.2.2)
          || decide (score_key a.2.1 (dot q q) a.2.2 ≤ score_key b.2.1 (dot q q) b.2.2))
          = true := by
      intro a b
      rw [Bool.or_eq_true, decide_eq_true_iff, decide_eq_true_iff]
      exact le_total _ _
    have hsorted := List.sorted_mergeSort htrans htotal
      ((scored_rows q (dim_filter store (some q.length))).filter
        (fun x => sim_ge x.2.1 (dot q q) x.2.2 m))
    have hpair : (ordered_scored_results store q top_k m (some q.length)).Pairwise
        (fun a b => decide (score_key b.2.1 (dot q q) b.2.2
          ≤ score_key a.2.1 (dot q q) a.2.2) = true) :=
      hsorted.sublist (List.take_sublist _ _)
    refine List.Pairwise.imp_of_mem ?_ hpair
    intro a b ha hb hab
    rcases hmem a ha with ⟨ra, hras, hara, hral, _⟩
    rcases hmem b hb with ⟨rb, hrbs, hbrb, hrbl, _⟩
    rw [decide_eq_true_iff] at hab
    have hna : 0 < dot ra.embedding ra.embedding := hstore ra hras
    have hnb : 0 < dot rb.embedding rb.embedding := hstore rb hrbs
    have ha2 : a.2 = (dot q ra.embedding, dot ra.embedding ra.embedding) := by
      rw [hara]
    have hb2 : b.2 = (dot q rb.embedding, dot rb.embedding rb.embedding) := by
      rw [hbrb]
    rw [ha2, hb2]
    rw [ha2, hb2] at hab
    exact (score_key_le_iff (dot q q) _ _ _ _ hq hnb hna).mp hab

/-- A table with two rows with identical embeddings, inserted with
descending passage ids: exercises the tie order of the intended query
semantics. -/
def storeTieW : List VRow := [⟨"p2", [1, 0], none⟩, ⟨"p1", [1, 0], none⟩]

/-- Even the intended query text has no id tie-break: both rows have the
same similarity against the query `[1, 0]` (their score data are identical
pairs), and the intended result lists "p2" before "p1" — table order, not
ascending id order. -/
theorem ordered_scored_results_tie_order :
    ordered_scored_results storeTieW [1, 0] 10 0 (some 2)
        = [("p2", 1, 1), ("p1", 1, 1)] ∧
      ¬ (ordered_scored_results storeTieW [1, 0] 10 0 (some 2)).Pairwise
          (fun a b => score_val (dot [1, 0] [1, 0]) a.2 = score_val (dot [1, 0] [1, 0]) b.2
            → a.1 ≤ b.1) := by
  have e1 : dim_filter storeTieW (some 2) = storeTieW := by
    simp [dim_filter, storeTieW]
  have e2 : scored_rows [1, 0] storeTieW
      = [("p2", (1 : ℚ), (1 : ℚ)), ("p1", 1, 1)] := by
    simp [scored_rows, storeTieW, dot]
  have e3 : sim_ge 1 (dot [1, 0] [1, 0]) 1 0 = true := by
    have hdq : dot [1, 0] [1, 0] = 1 := by norm_num [dot]
    rw [hdq]
    simp only [sim_ge, sgnSq, score_key]
    rw [decide_eq_true_eq]
    norm_num
  have e4 : List.filter
      (fun x : String × ℚ × ℚ => sim_ge x.2.1 (dot [1, 0] [1, 0]) x.2.2 0)
      [("p2", (1 : ℚ), (1 : ℚ)), ("p1", 1, 1)]
        = [("p2", (1 : ℚ), (1 : ℚ)), ("p1", 1, 1)] := by
    simp only [List.filter_cons, List.filter_nil]
    simp [e3]
  have e5 : ([("p2", (1 : ℚ), (1 : ℚ)), ("p1", 1, 1)]).mergeSort
      (fun a b => decide (score_key b.2.1 (dot [1, 0] [1, 0]) b.2.2
        ≤ score_key a.2.1 (dot [1, 0] [1, 0]) a.2.2))
      = [("p2", (1 : ℚ), (1 : ℚ)), ("p1", 1, 1)] := by
    apply List.mergeSort_of_sorted
    refine List.Pairwise.cons ?_ (List.pairwise_singleton _ _)
    intro b hb
    rw [List.mem_singleton] at hb
    subst hb
    rw [decide_eq_true_eq]
  have h : ordered_scored_results storeTieW [1, 0] 10 0 (some 2)
      = [("p2", 1, 1), ("p1", 1, 1)] := by
    unfold ordered_scored_results
    rw [e1, e2, e4, e5]
    rfl
  refine ⟨h, ?_⟩
  rw [h]
  intro hp
  have h2 := (List.pairwise_cons.mp hp).1 ("p1", 1, 1) (List.mem_singleton_self _) rfl
  have hnle : ¬ (("p2" : String) ≤ "p1") := by
    rw [String.le_iff_toList_le]
    decide
  exact hnle h2

/-! ## Claim C6 -/

set_option maxRecDepth 16000 in
/-- C6 (code_bug): the similarity-search SQL interpolates the
two-placeholder cosine expression twice (SELECT and HAVING) but appends the
query embedding to `params` only three times: with the dimension filter the
query text holds 7 `%s` against 6 bound parameters, without it 6 against 5.
psycopg2's client-side interpolation therefore raises on every call, the
`except` block re-raises, and `search_similar_passages` always returns the
formatting error — it never returns any (passage_id, score) list, contrary
to the claim, to its own docstring and to its caller
`_search_similar_passages_in_vector_store`. -/
theorem C6_placeholder_mismatch :
    countPS (search_query (some 2)).data = 7
    ∧ (search_params [1, 0] 10 (1 / 10 : ℚ) (some 2)).length = 6
    ∧ countPS (search_query none).data = 6
    ∧ (search_params [1, 0] 10 (1 / 10 : ℚ) none).length = 5
    ∧ ∀ (store : List VRow) (q : List ℚ) (top_k : Nat) (m : ℚ)
        (embedding_dim : Option Nat),
        search_similar_passages store q top_k m embedding_dim
          = .error "not enough arguments for format string" := by
  refine ⟨by decide, rfl, by decide, rfl, ?_⟩
  intro store q top_k m embedding_dim
  unfold search_similar_passages
  rcases embedding_dim with _ | d
  · have h6 : countPS (search_query none).data = 6 := by decide
    have hl : (search_params q top_k m none).length = 5 := by
      simp [search_params]
    rw [if_neg (by rw [h6, hl]; omega)]
  · by_cases hd : d ≠ 0
    · have hw : where_conditions (some d) = ["embedding_dim = %s"] := by
        simp [where_conditions, hd]
      have h7 : countPS (search_query (some d)).data = 7 := by
        unfold search_query
        rw [hw]
        decide
      have hl : (search_params q top_k m (some d)).length = 6 := by
        simp [search_params, hd]
      rw [if_neg (by rw [h7, hl]; omega)]
    · push_neg at hd
      subst hd
      have h6 : countPS (search_query (some 0)).data = 6 := by decide
      have hl : (search_params q top_k m (some 0)).length = 5 := by
        simp [search_params]
      rw [if_neg (by rw [h6, hl]; omega)]

end LettaOG
